import Mathlib

/-!
Verification of the GitLit client core (`src/lib.rs`) against its
specification.  The Rust code is shallowly embedded: the filesystem that
backs the credential store becomes an explicit association list from file
paths to file states, HTTP becomes an oracle function from the request the
client builds to the server's response, and every client operation returns
its result, the filesystem afterwards, and the list of requests it sent
(so that "no network request was attempted" is the sent list being empty).
-/

namespace GitLit

/-- Minimal JSON values, enough for the bodies the client sends and the
responses it parses (`serde_json::Value` restricted to what the code uses). -/
inductive Json where
  | null : Json
  | bool (b : Bool) : Json
  | num (n : Int) : Json
  | str (s : String) : Json
  | arr (xs : List Json) : Json
  | obj (kvs : List (String × Json)) : Json
  deriving Repr

/-- Field lookup in a JSON object; `none` when the value is not an object or
the key is absent (first binding wins, as in `serde_json`). -/
def Json.getField : Json → String → Option Json
  | .obj kvs, k => kvs.lookup k
  | _, _ => none

/-- Rust `GitLitError` from `src/lib.rs`.  `http` carries a transport error
message, `ioError` a local file-IO message, `serde` a deserialization
message, `auth` the catch-all status message; `unauthorized` is the bare
variant.  (Rust names: `Http`, `Io`, `Serde`, `Unauthorized`, `Auth`.) -/
inductive GitLitError where
  | http (msg : String) : GitLitError
  | ioError (msg : String) : GitLitError
  | serde (msg : String) : GitLitError
  | unauthorized : GitLitError
  | auth (msg : String) : GitLitError
  deriving Repr, DecidableEq

/-- Rust `Repository` from `src/lib.rs`. -/
structure Repository where
  _id : String
  user : String
  name : String
  description : String
  is_private : Bool
  created_at : String
  updated_at : String
  forked_from : Option String
  deriving Repr, DecidableEq

/-- Rust `OkResponse` from `src/lib.rs`. -/
structure OkResponse where
  ok : Bool
  deriving Repr, DecidableEq

/-- Rust `BrancheDeleteResponse` from `src/lib.rs`. -/
structure BrancheDeleteResponse where
  message : String
  deriving Repr, DecidableEq

/-- The state of one file on disk.  `present` is a readable file with the
given contents; `unreadable` exists but fails to read (an unexpected IO
failure); `stuck` exists and reads fine but removal fails (an unexpected IO
failure on `remove_file`).  `absent` means no file. -/
inductive FileState where
  | absent : FileState
  | present (data : String) : FileState
  | unreadable : FileState
  | stuck (data : String) : FileState
  deriving Repr, DecidableEq

/-- The filesystem visible to the token store: an association list from file
path to file state; paths not listed are absent. -/
abbrev FS := List (String × FileState)

/-- Look up a path; an unlisted path is an absent file. -/
def FS.get (fs : FS) (p : String) : FileState :=
  (List.lookup p fs).getD .absent

/-- Overwrite the state of one path (prepending shadows older bindings). -/
def FS.set (fs : FS) (p : String) (st : FileState) : FS :=
  (p, st) :: fs

/-- Whether `path.exists()` holds for this path. -/
def FS.pathExists (fs : FS) (p : String) : Bool :=
  fs.get p != .absent

/-- Drop the elements satisfying `p` from the end of a list. -/
def rtrimList {α : Type} (p : α → Bool) (l : List α) : List α :=
  (l.reverse.dropWhile p).reverse

/-- Strip whitespace from both ends of a character list (front first, then
back), the model of Rust's `str::trim`. -/
def trimChars (l : List Char) : List Char :=
  rtrimList Char.isWhitespace (l.dropWhile Char.isWhitespace)

/-- Rust `data.trim().to_string()` on a Lean string. -/
def rustTrim (s : String) : String :=
  ⟨trimChars s.data⟩

/-- Rust `url.trim_end_matches('/')`: removes every trailing `'/'`
(the pattern is removed repeatedly, not once). -/
def trimEndSlashes (s : String) : String :=
  ⟨(s.data.reverse.dropWhile (fun c => c = '/')).reverse⟩

namespace TokenStore

/-- Rust `TokenStore::token_path`: every character of the host that is not an
ASCII letter or digit becomes `'_'`, and the suffix `".token"` is appended.
(The constant configuration-directory part of the path is omitted: it is
the same for every host and never varies in the model.) -/
def tokenPath (host : String) : String :=
  ⟨host.data.map (fun c => if c.isAlphanum then c else '_')⟩ ++ ".token"

/-- Rust `TokenStore::load`: `Ok(None)` when the file does not exist; an IO error
when the read fails unexpectedly; otherwise the contents are trimmed and an
empty result is `Ok(None)`, a non-empty one `Ok(Some(token))`. -/
def load (fs : FS) (host : String) : Except GitLitError (Option String) :=
  let p := tokenPath host
  match fs.get p with
  | .absent => .ok none
  | .unreadable => .error (.ioError "read failure")
  | .present data =>
      let token := rustTrim data
      if token = "" then .ok none else .ok (some token)
  | .stuck data =>
      let token := rustTrim data
      if token = "" then .ok none else .ok (some token)

/-- Rust `TokenStore::save`: creates the parent directory and writes the token
verbatim, overwriting any prior value.  (Write failures are not modelled:
the filesystem model makes writes succeed.) -/
def save (fs : FS) (host : String) (token : String) :
    Except GitLitError FS :=
  .ok (fs.set (tokenPath host) (.present token))

/-- Rust `TokenStore::delete`: if the file exists it is removed (an IO error when
removal fails unexpectedly); a missing file is not an error. -/
def delete (fs : FS) (host : String) : Except GitLitError FS :=
  let p := tokenPath host
  match fs.get p with
  | .absent => .ok fs
  | .present _ => .ok (fs.set p .absent)
  | .unreadable => .ok (fs.set p .absent)
  | .stuck _ => .error (.ioError "remove failure")

end TokenStore

/-- HTTP method of a request the client builds. -/
inductive Method where
  | get : Method
  | post : Method
  | delete : Method
  deriving Repr, DecidableEq

/-- An outgoing HTTP request as the client assembles it: method, full URL,
query pairs in the order appended, extra headers, optional bearer token,
optional JSON body. -/
structure Request where
  method : Method
  url : String
  query : List (String × String)
  headers : List (String × String)
  bearer : Option String
  body : Option Json
  deriving Repr

/-- The server's answer to one request: a status code and a JSON body. -/
structure Response where
  status : Nat
  body : Json
  deriving Repr

/-- The network oracle: what the server answers to each request. -/
def Server := Request → Response

/-- Rust `StatusCode::is_success()`: the 2xx range. -/
def isSuccess (status : Nat) : Bool :=
  200 ≤ status && status < 300

/-- Rust `GitLitClient`: after construction only the normalized base URL matters
to the model (the transport handle carries no state the claims mention). -/
structure GitLitClient where
  url : String
  deriving Repr, DecidableEq

/-- Rust `GitLitClient::new`: stores the base URL with every trailing slash
stripped.  (Transport construction failure is not modelled; the builder is
state-free.) -/
def GitLitClient.new (url : String) : GitLitClient :=
  ⟨trimEndSlashes url⟩

/-- Rust `GitLitClient::host_key`: the endpoint identity is the stored URL. -/
def GitLitClient.hostKey (c : GitLitClient) : String :=
  c.url

/-- Rust `GitLitClient::get_token`: loads the cached token for the host key; a
present non-empty token is returned, anything else is `Auth("notoken")`
(a load failure propagates). -/
def GitLitClient.getToken (c : GitLitClient) (fs : FS) :
    Except GitLitError String :=
  match TokenStore.load fs c.hostKey with
  | .error e => .error e
  | .ok (some token) =>
      if token = "" then .error (.auth "notoken") else .ok token
  | .ok none => .error (.auth "notoken")

/-- A JSON string value, when the value is a string. -/
def Json.getStr : Json → Option String
  | .str s => some s
  | _ => none

/-- A JSON boolean value, when the value is a boolean. -/
def Json.getBool : Json → Option Bool
  | .bool b => some b
  | _ => none

/-- Deserialize `LoginResp { token: String }` from `login`: the body must
be an object whose `token` field is a string.  A decode failure of
`res.json()` is a `reqwest::Error`, which `#[from] reqwest::Error` turns
into the `Http` variant — not `Serde`, which nothing in `lib.rs` ever
constructs. -/
def parseLoginResp (j : Json) : Except GitLitError String :=
  match j.getField "token" with
  | some (.str t) => .ok t
  | _ => .error (.http "error decoding response body")

/-- Deserialize one `Repository`: every non-optional field must be present
with the right type; a missing or `null` `forked_from` is `none`. -/
def repositoryOfJson (j : Json) : Option Repository := do
  let i ← (j.getField "_id").bind Json.getStr
  let u ← (j.getField "user").bind Json.getStr
  let n ← (j.getField "name").bind Json.getStr
  let d ← (j.getField "description").bind Json.getStr
  let p ← (j.getField "is_private").bind Json.getBool
  let ca ← (j.getField "created_at").bind Json.getStr
  let ua ← (j.getField "updated_at").bind Json.getStr
  let ff ← match j.getField "forked_from" with
    | none => some none
    | some .null => some none
    | some (.str s) => some (some s)
    | some _ => none
  pure ⟨i, u, n, d, p, ca, ua, ff⟩

/-- Rust `res.json::<Repository>()` as an `Except`; a decode failure is a
`reqwest::Error`, surfaced through `#[from]` as the `Http` variant. -/
def parseRepository (j : Json) : Except GitLitError Repository :=
  match repositoryOfJson j with
  | some r => .ok r
  | none => .error (.http "error decoding response body")

/-- Rust `res.json::<Vec<Repository>>()` as an `Except`; a decode failure
is a `reqwest::Error`, surfaced through `#[from]` as the `Http` variant. -/
def parseRepoList (j : Json) : Except GitLitError (List Repository) :=
  match j with
  | .arr xs =>
      match xs.mapM repositoryOfJson with
      | some rs => .ok rs
      | none => .error (.http "error decoding response body")
  | _ => .error (.http "error decoding response body")

/-- Rust `res.json::<OkResponse>()` as an `Except`; a decode failure is a
`reqwest::Error`, surfaced through `#[from]` as the `Http` variant. -/
def parseOkResponse (j : Json) : Except GitLitError OkResponse :=
  match (j.getField "ok").bind Json.getBool with
  | some b => .ok ⟨b⟩
  | none => .error (.http "error decoding response body")

/-- Rust `res.json::<BrancheDeleteResponse>()` as an `Except`; a decode
failure is a `reqwest::Error`, surfaced through `#[from]` as the `Http`
variant. -/
def parseBrancheDelete (j : Json) : Except GitLitError BrancheDeleteResponse :=
  match (j.getField "message").bind Json.getStr with
  | some m => .ok ⟨m⟩
  | none => .error (.http "error decoding response body")

/-- One optional query parameter: appended as a single pair when supplied,
contributing nothing when absent. -/
def optQuery (k : String) : Option String → List (String × String)
  | some v => [(k, v)]
  | none => []

/-- The request `login` sends. -/
def loginReq (c : GitLitClient) (lg pw : String) : Request :=
  { method := .post, url := c.url ++ "/api/v1/login", query := [],
    headers := [], bearer := none,
    body := some (.obj [("login", .str lg), ("password", .str pw)]) }

/-- Rust `GitLitClient::login`: posts the credentials; any non-2xx is an auth
error carrying the status; on 2xx the `token` field is extracted, saved into
the store, and returned. -/
def GitLitClient.login (c : GitLitClient) (fs : FS) (server : Server)
    (lg pw : String) : Except GitLitError String × FS × List Request :=
  let req := loginReq c lg pw
  let res := server req
  if isSuccess res.status then
    match parseLoginResp res.body with
    | .error e => (.error e, fs, [req])
    | .ok token =>
        match TokenStore.save fs c.hostKey token with
        | .error e => (.error e, fs, [req])
        | .ok fs2 => (.ok token, fs2, [req])
  else
    (.error (.auth ("login failed: " ++ toString res.status)), fs, [req])

/-- The request `list_repos` sends: the three optional parameters are
appended to the query in order, each only when supplied. -/
def listReposReq (c : GitLitClient) (owner filt q : Option String) :
    Request :=
  { method := .get, url := c.url ++ "/api/v1/repos",
    query := optQuery "owner" owner ++ optQuery "filter" filt
      ++ optQuery "q" q,
    headers := [], bearer := none, body := none }

/-- Rust `GitLitClient::list_repos`: unauthenticated; non-2xx is an auth error,
2xx is parsed as a repository list. -/
def GitLitClient.list_repos (c : GitLitClient) (fs : FS) (server : Server)
    (owner filt q : Option String) :
    Except GitLitError (List Repository) × FS × List Request :=
  let req := listReposReq c owner filt q
  let res := server req
  if isSuccess res.status then (parseRepoList res.body, fs, [req])
  else
    (.error (.auth ("list_repos failed: " ++ toString res.status)), fs,
      [req])

/-- The JSON body of `create_repo` (`CreateRepoRequest` with
`skip_serializing_if` on the two options). -/
def createRepoBody (name : String) (description : Option String)
    (is_private : Option Bool) : Json :=
  .obj ([("name", .str name)]
    ++ (match description with
        | some d => [("description", .str d)]
        | none => [])
    ++ (match is_private with
        | some b => [("is_private", .bool b)]
        | none => []))

/-- The request `create_repo` sends once a token was obtained. -/
def createRepoReq (c : GitLitClient) (name : String)
    (description : Option String) (is_private : Option Bool)
    (token : String) : Request :=
  { method := .post, url := c.url ++ "/api/v1/create", query := [],
    headers := [], bearer := some token,
    body := some (createRepoBody name description is_private) }

/-- Rust `GitLitClient::create_repo`: authenticated; a token failure is returned
before any request is sent; only status 201 is success. -/
def GitLitClient.create_repo (c : GitLitClient) (fs : FS) (server : Server)
    (name : String) (description : Option String)
    (is_private : Option Bool) :
    Except GitLitError Repository × FS × List Request :=
  match c.getToken fs with
  | .error e => (.error e, fs, [])
  | .ok token =>
      let req := createRepoReq c name description is_private token
      let res := server req
      if res.status = 201 then (parseRepository res.body, fs, [req])
      else
        (.error (.auth ("create_repo failed: " ++ toString res.status)),
          fs, [req])

/-- The request `delete_repo` sends once a token was obtained. -/
def deleteRepoReq (c : GitLitClient) (id token : String) : Request :=
  { method := .delete, url := c.url ++ "/api/v1/delete",
    query := [("id", id)], headers := [], bearer := some token,
    body := none }

/-- Rust `GitLitClient::delete_repo`: authenticated; a token failure is returned
before any request is sent; any 2xx is success. -/
def GitLitClient.delete_repo (c : GitLitClient) (fs : FS) (server : Server)
    (id : String) : Except GitLitError OkResponse × FS × List Request :=
  match c.getToken fs with
  | .error e => (.error e, fs, [])
  | .ok token =>
      let req := deleteRepoReq c id token
      let res := server req
      if isSuccess res.status then (parseOkResponse res.body, fs, [req])
      else
        (.error (.auth ("delete_repo failed: " ++ toString res.status)),
          fs, [req])

/-- The request `delete_branch` sends once a token was obtained. -/
def deleteBranchReq (c : GitLitClient) (id branch token : String) :
    Request :=
  { method := .delete, url := c.url ++ "/api/v1/branch",
    query := [("id", id), ("branch", branch)], headers := [],
    bearer := some token, body := none }

/-- Rust `GitLitClient::delete_branch`: authenticated; a token failure is
returned before any request is sent; any 2xx is success. -/
def GitLitClient.delete_branch (c : GitLitClient) (fs : FS)
    (server : Server) (id branch : String) :
    Except GitLitError BrancheDeleteResponse × FS × List Request :=
  match c.getToken fs with
  | .error e => (.error e, fs, [])
  | .ok token =>
      let req := deleteBranchReq c id branch token
      let res := server req
      if isSuccess res.status then (parseBrancheDelete res.body, fs, [req])
      else
        (.error (.auth ("delete_branch failed: " ++ toString res.status)),
          fs, [req])

/-- The request `logout` sends once a token was obtained. -/
def logoutReq (c : GitLitClient) (token : String) : Request :=
  { method := .post, url := c.url ++ "/api/v1/logout", query := [],
    headers := [("Accept", "application/json"), ("Content-Length", "0")],
    bearer := some token, body := none }

/-- Rust `GitLitClient::logout`: a missing token (`Auth` from `get_token`) is
mapped to `Unauthorized` with no request sent, other token errors
propagate; a 401 response deletes the cached token with the deletion result
discarded (`let _ = ...`) and returns `Unauthorized`; any other non-2xx is
an auth error; on 2xx the token is deleted, a deletion failure propagating. -/
def GitLitClient.logout (c : GitLitClient) (fs : FS) (server : Server) :
    Except GitLitError Unit × FS × List Request :=
  match c.getToken fs with
  | .ok token =>
      let req := logoutReq c token
      let res := server req
      if res.status = 401 then
        let fs2 := match TokenStore.delete fs c.hostKey with
          | .ok fs2 => fs2
          | .error _ => fs
        (.error .unauthorized, fs2, [req])
      else if isSuccess res.status then
        match TokenStore.delete fs c.hostKey with
        | .error e => (.error e, fs, [req])
        | .ok fs2 => (.ok (), fs2, [req])
      else
        (.error (.auth ("logout failed: " ++ toString res.status)), fs,
          [req])
  | .error (.auth _) => (.error .unauthorized, fs, [])
  | .error e => (.error e, fs, [])

/-! ### Helper lemmas -/

theorem FS.get_set_same (fs : FS) (p : String) (st : FileState) :
    (fs.set p st).get p = st := by
  simp [FS.get, FS.set, List.lookup]

theorem dropWhile_eq_cons_imp {α : Type} {p : α → Bool} {l : List α}
    {a : α} {t : List α} (h : l.dropWhile p = a :: t) : p a = false := by
  have hh := List.head?_dropWhile_not p l
  rw [h] at hh
  simpa using hh

theorem dropWhile_dropWhile {α : Type} (p : α → Bool) (l : List α) :
    (l.dropWhile p).dropWhile p = l.dropWhile p := by
  cases h : l.dropWhile p with
  | nil => rfl
  | cons a t =>
      have ha : p a = false := dropWhile_eq_cons_imp h
      simp [List.dropWhile_cons, ha]

theorem rtrimList_cons_of_neg {α : Type} {p : α → Bool} {a : α}
    {t : List α} (h : p a = false) :
    rtrimList p (a :: t) = a :: rtrimList p t := by
  unfold rtrimList
  rw [List.reverse_cons, List.dropWhile_append]
  by_cases he : (t.reverse.dropWhile p).isEmpty
  · rw [List.isEmpty_iff] at he
    simp [he, List.dropWhile_cons, h]
  · simp only [he, if_neg, Bool.false_eq_true, not_false_eq_true,
      List.reverse_append, List.reverse_cons, List.reverse_nil,
      List.nil_append, List.cons_append]

theorem rtrimList_idem {α : Type} (p : α → Bool) (l : List α) :
    rtrimList p (rtrimList p l) = rtrimList p l := by
  unfold rtrimList
  rw [List.reverse_reverse, dropWhile_dropWhile]

theorem trimChars_idem (l : List Char) :
    trimChars (trimChars l) = trimChars l := by
  unfold trimChars
  cases h : l.dropWhile Char.isWhitespace with
  | nil => simp [rtrimList]
  | cons a t =>
      have ha : Char.isWhitespace a = false := dropWhile_eq_cons_imp h
      rw [rtrimList_cons_of_neg ha,
        List.dropWhile_cons_of_neg (by simp [ha]),
        ← rtrimList_cons_of_neg ha, rtrimList_idem]

theorem rustTrim_idem (s : String) : rustTrim (rustTrim s) = rustTrim s :=
  congrArg String.mk (trimChars_idem s.data)

theorem delete_load_none (fs fs2 : FS) (host : String)
    (hdel : TokenStore.delete fs host = .ok fs2) :
    TokenStore.load fs2 host = .ok none := by
  cases hget : fs.get (TokenStore.tokenPath host) with
  | absent =>
      simp only [TokenStore.delete, hget, Except.ok.injEq] at hdel
      subst hdel
      simp [TokenStore.load, hget]
  | present d =>
      simp only [TokenStore.delete, hget, Except.ok.injEq] at hdel
      subst hdel
      simp [TokenStore.load, FS.get_set_same]
  | unreadable =>
      simp only [TokenStore.delete, hget, Except.ok.injEq] at hdel
      subst hdel
      simp [TokenStore.load, FS.get_set_same]
  | stuck d =>
      simp [TokenStore.delete, hget] at hdel

/-! ### Claims about the credential store -/

/-- C4 (amended): `save(id, t)` followed by `load(id)` returns the
whitespace-trim of `t` whenever that trim is non-empty; it returns exactly
`t` when `t` is additionally free of leading and trailing whitespace
(`t` equals its own trim). -/
theorem claim_C4 (fs fs2 : FS) (id t : String)
    (hsave : TokenStore.save fs id t = .ok fs2) :
    (rustTrim t ≠ "" → TokenStore.load fs2 id = .ok (some (rustTrim t))) ∧
    (rustTrim t = t → t ≠ "" → TokenStore.load fs2 id = .ok (some t)) := by
  have hfs2 : fs2 = fs.set (TokenStore.tokenPath id) (.present t) := by
    simpa [TokenStore.save] using hsave.symm
  subst hfs2
  constructor
  · intro hne
    simp [TokenStore.load, FS.get_set_same, hne]
  · intro heq hne
    simp [TokenStore.load, FS.get_set_same, heq, hne]

/-- C4 witness: a concrete save/load round-trip at a trim-free token. -/
theorem claim_C4_witness :
    TokenStore.load [("h.token", FileState.present "a")] "h"
      = .ok (some "a") :=
  (claim_C4 [] [("h.token", FileState.present "a")] "h" "a" rfl).2
    (by decide) (by decide)

/-- C4 counterexample: `" a "` is non-empty and not whitespace-only, yet
the round-trip loads `"a"`, not `" a "`: the store trims on load. -/
theorem claim_C4_counterexample :
    TokenStore.save [] "h" " a "
        = .ok [("h.token", FileState.present " a ")] ∧
    TokenStore.load [("h.token", FileState.present " a ")] "h"
        = .ok (some "a") ∧
    (" a " : String) ≠ "" ∧ rustTrim " a " ≠ "" ∧
    (some "a" : Option String) ≠ some " a " :=
  ⟨rfl, rfl, by decide, by decide, by decide⟩

/-- C5 (amended): construction strips every trailing slash from the base
URL, not just one: the stored URL carries no trailing slash, the input is
the stored URL followed by some number of slashes, and an input with no
trailing slash is stored unchanged. -/
theorem claim_C5 (s : String) :
    (∃ k, s = (GitLitClient.new s).url ++ String.mk (List.replicate k '/'))
      ∧ (GitLitClient.new s).url.data.getLast? ≠ some '/'
      ∧ (s.data.getLast? ≠ some '/' → (GitLitClient.new s).url = s) := by
  have hurl : (GitLitClient.new s).url
      = ⟨(s.data.reverse.dropWhile (fun c => c = '/')).reverse⟩ := rfl
  refine ⟨⟨(s.data.reverse.takeWhile (fun c => c = '/')).length, ?_⟩, ?_, ?_⟩
  · have hrepl : s.data.reverse.takeWhile (fun c => c = '/')
        = List.replicate
            (s.data.reverse.takeWhile (fun c => c = '/')).length '/' := by
      apply List.eq_replicate_of_mem
      intro b hb
      have := List.mem_takeWhile_imp hb
      simpa using this
    have hsplit : s.data
        = (s.data.reverse.takeWhile (fun c => c = '/')
            ++ s.data.reverse.dropWhile (fun c => c = '/')).reverse := by
      rw [List.takeWhile_append_dropWhile, List.reverse_reverse]
    rw [List.reverse_append] at hsplit
    rw [hrepl, List.reverse_replicate] at hsplit
    calc s = ⟨s.data⟩ := rfl
      _ = ⟨(s.data.reverse.dropWhile (fun c => c = '/')).reverse
            ++ List.replicate
              (s.data.reverse.takeWhile (fun c => c = '/')).length '/'⟩ := by
          rw [← hsplit]
      _ = (GitLitClient.new s).url
            ++ String.mk (List.replicate
              (s.data.reverse.takeWhile (fun c => c = '/')).length '/') := by
          rw [hurl]; rfl
  · rw [hurl]
    show (List.reverse _).getLast? ≠ some '/'
    rw [List.getLast?_reverse]
    cases hd : s.data.reverse.dropWhile (fun c => c = '/') with
    | nil => simp
    | cons a t =>
        have hna := dropWhile_eq_cons_imp hd
        simp only [List.head?_cons, ne_eq, Option.some.injEq]
        intro hcon
        subst hcon
        simp at hna
  · intro hlast
    rw [hurl]
    cases hr : s.data.reverse with
    | nil =>
        have hnil : s.data = [] := by
          simpa using congrArg List.reverse hr
        have hs : s = ⟨[]⟩ := congrArg String.mk hnil
        rw [hs]
        rfl
    | cons a t =>
        have hha : s.data.getLast? = some a := by
          rw [← List.head?_reverse, hr]; rfl
        have hane : ¬ ((fun c => decide (c = '/')) a = true) := by
          simp only [decide_eq_true_eq]
          intro hcon
          exact hlast (hcon ▸ hha)
        rw [List.dropWhile_cons, if_neg hane, ← hr,
          List.reverse_reverse]

/-- C5 witness: an input with no trailing slash is stored unchanged. -/
theorem claim_C5_witness : (GitLitClient.new "ab").url = "ab" :=
  (claim_C5 "ab").2.2 (by decide)

/-- C5 counterexample: with input `"a//"` the claim as stated demands the
stored URL `"a/"` (exactly one trailing slash removed), but the code stores
`"a"`: every trailing slash is stripped. -/
theorem claim_C5_counterexample :
    (GitLitClient.new "a//").url = "a" ∧ ("a" : String) ≠ "a/" :=
  ⟨rfl, by decide⟩

/-- C7: `load` answers `Ok(None)` when the token file is absent and when
its contents trim to nothing; it fails only when the file exists but cannot
be read, and then with an IO error — never merely because the file is
absent. -/
theorem claim_C7 (fs : FS) (host : String) :
    (fs.get (TokenStore.tokenPath host) = .absent →
      TokenStore.load fs host = .ok none) ∧
    (∀ d, fs.get (TokenStore.tokenPath host) = .present d →
      rustTrim d = "" → TokenStore.load fs host = .ok none) ∧
    (∀ e, TokenStore.load fs host = .error e →
      fs.get (TokenStore.tokenPath host) = .unreadable
        ∧ e = .ioError "read failure") := by
  refine ⟨?_, ?_, ?_⟩
  · intro h
    simp [TokenStore.load, h]
  · intro d h hd
    simp [TokenStore.load, h, hd]
  · intro e he
    cases hget : fs.get (TokenStore.tokenPath host) with
    | absent => simp [TokenStore.load, hget] at he
    | unreadable =>
        simp [TokenStore.load, hget] at he
        exact ⟨rfl, he.symm⟩
    | present d =>
        simp only [TokenStore.load, hget] at he
        split at he <;> simp at he
    | stuck d =>
        simp only [TokenStore.load, hget] at he
        split at he <;> simp at he

/-- C7 witness: the three behaviours at concrete stores — absent file,
whitespace-only file, unreadable file. -/
theorem claim_C7_witness :
    TokenStore.load [] "h" = .ok none ∧
    TokenStore.load [("h.token", FileState.present " ")] "h" = .ok none ∧
    (FS.get [("h.token", FileState.unreadable)] (TokenStore.tokenPath "h")
        = .unreadable
      ∧ (GitLitError.ioError "read failure")
          = GitLitError.ioError "read failure") :=
  ⟨(claim_C7 [] "h").1 rfl,
   (claim_C7 [("h.token", FileState.present " ")] "h").2.1 " " rfl rfl,
   (claim_C7 [("h.token", FileState.unreadable)] "h").2.2
     (.ioError "read failure") rfl⟩

/-- C8: `delete` followed by `load` on the same identity answers
`Ok(None)`, and `delete` on an identity whose token file is already absent
succeeds, leaving the store unchanged. -/
theorem claim_C8 (fs : FS) (host : String) :
    (∀ fs2, TokenStore.delete fs host = .ok fs2 →
      TokenStore.load fs2 host = .ok none) ∧
    (fs.get (TokenStore.tokenPath host) = .absent →
      TokenStore.delete fs host = .ok fs) := by
  constructor
  · intro fs2 hdel
    exact delete_load_none fs fs2 host hdel
  · intro h
    simp [TokenStore.delete, h]

/-- C8 witness: deleting a present token makes a following load read
nothing, and deleting with no token file succeeds without change. -/
theorem claim_C8_witness :
    TokenStore.load
        [("h.token", FileState.absent), ("h.token", FileState.present "a")]
        "h" = .ok none ∧
    TokenStore.delete [] "h" = .ok [] :=
  ⟨(claim_C8 [("h.token", FileState.present "a")] "h").1
      [("h.token", FileState.absent), ("h.token", FileState.present "a")]
      rfl,
   (claim_C8 [] "h").2 rfl⟩

/-- C10: whenever `load` answers `Some(t)` the token `t` is non-empty and
equal to its own trim, so `get_token`'s emptiness re-check never fires:
`get_token` on a client with that host key succeeds with exactly `t`. -/
theorem claim_C10 (fs : FS) (host t : String)
    (h : TokenStore.load fs host = .ok (some t)) :
    t ≠ "" ∧ rustTrim t = t ∧ GitLitClient.getToken ⟨host⟩ fs = .ok t := by
  have key : t ≠ "" ∧ rustTrim t = t := by
    cases hget : fs.get (TokenStore.tokenPath host) with
    | absent => simp [TokenStore.load, hget] at h
    | unreadable => simp [TokenStore.load, hget] at h
    | present d =>
        simp only [TokenStore.load, hget] at h
        split at h
        · simp at h
        · rename_i hne
          simp only [Except.ok.injEq, Option.some.injEq] at h
          subst h
          exact ⟨hne, rustTrim_idem d⟩
    | stuck d =>
        simp only [TokenStore.load, hget] at h
        split at h
        · simp at h
        · rename_i hne
          simp only [Except.ok.injEq, Option.some.injEq] at h
          subst h
          exact ⟨hne, rustTrim_idem d⟩
  refine ⟨key.1, key.2, ?_⟩
  simp [GitLitClient.getToken, GitLitClient.hostKey, h, key.1]

/-- C10 witness: a store holding a clean token, on which `load` answers
`Some` and `get_token` succeeds. -/
theorem claim_C10_witness :
    ("a" : String) ≠ "" ∧ rustTrim "a" = "a" ∧
    GitLitClient.getToken ⟨"h"⟩ [("h.token", FileState.present "a")]
      = .ok "a" :=
  claim_C10 [("h.token", FileState.present "a")] "h" "a" rfl

/-! ### Claims about the client operations -/

/-- C1 (amended): with no cached token for the endpoint identity (an empty
or whitespace-only token file loads as absent) every authenticated
operation fails before any network request is sent — the sent list is
empty — but only `logout` fails with `Unauthorized`; `create_repo`,
`delete_repo` and `delete_branch` fail with the auth error `"notoken"`. -/
theorem claim_C1 (c : GitLitClient) (fs : FS) (server : Server)
    (name id branch : String) (desc : Option String) (priv : Option Bool)
    (hno : TokenStore.load fs c.hostKey = .ok none) :
    c.create_repo fs server name desc priv
        = (.error (.auth "notoken"), fs, []) ∧
    c.delete_repo fs server id = (.error (.auth "notoken"), fs, []) ∧
    c.delete_branch fs server id branch
        = (.error (.auth "notoken"), fs, []) ∧
    c.logout fs server = (.error .unauthorized, fs, []) := by
  have hg : c.getToken fs = .error (.auth "notoken") := by
    simp [GitLitClient.getToken, hno]
  refine ⟨?_, ?_, ?_, ?_⟩
  · simp [GitLitClient.create_repo, hg]
  · simp [GitLitClient.delete_repo, hg]
  · simp [GitLitClient.delete_branch, hg]
  · simp [GitLitClient.logout, hg]

/-- C1 witness: the four operations on an empty store, with no request
attempted. -/
theorem claim_C1_witness :
    (GitLitClient.new "h").create_repo [] (fun _ => ⟨200, .null⟩) "n"
        none none = (.error (.auth "notoken"), [], []) ∧
    (GitLitClient.new "h").delete_repo [] (fun _ => ⟨200, .null⟩) "i"
        = (.error (.auth "notoken"), [], []) ∧
    (GitLitClient.new "h").delete_branch [] (fun _ => ⟨200, .null⟩) "i" "b"
        = (.error (.auth "notoken"), [], []) ∧
    (GitLitClient.new "h").logout [] (fun _ => ⟨200, .null⟩)
        = (.error .unauthorized, [], []) :=
  claim_C1 (GitLitClient.new "h") [] (fun _ => ⟨200, .null⟩) "n" "i" "b"
    none none rfl

/-- C1 counterexample: `create_repo` with no stored token fails with the
auth error `"notoken"`, which is not the `Unauthorized` variant the claim
names. -/
theorem claim_C1_counterexample :
    (GitLitClient.new "h").create_repo [] (fun _ => ⟨201, .null⟩) "n"
        none none = (.error (.auth "notoken"), [], []) ∧
    GitLitError.auth "notoken" ≠ .unauthorized :=
  ⟨rfl, by decide⟩

/-- C2: a 401 answer to `logout` deletes the cached token and returns
`Unauthorized`, after which `load` reads nothing and a repeated `logout`
fails with `Unauthorized` sending no request; any other non-2xx answer
returns the auth error carrying the status and leaves the store
untouched. -/
theorem claim_C2 (c : GitLitClient) (fs fs2 : FS) (server : Server)
    (t : String) (htok : c.getToken fs = .ok t)
    (hdel : TokenStore.delete fs c.hostKey = .ok fs2) :
    ((server (logoutReq c t)).status = 401 →
      c.logout fs server = (.error .unauthorized, fs2, [logoutReq c t]) ∧
      TokenStore.load fs2 c.hostKey = .ok none ∧
      ∀ server2, c.logout fs2 server2 = (.error .unauthorized, fs2, [])) ∧
    (isSuccess (server (logoutReq c t)).status = false →
      (server (logoutReq c t)).status ≠ 401 →
      c.logout fs server
        = (.error (.auth ("logout failed: "
            ++ toString (server (logoutReq c t)).status)), fs,
          [logoutReq c t])) := by
  constructor
  · intro h401
    have hload2 : TokenStore.load fs2 c.hostKey = .ok none :=
      delete_load_none fs fs2 c.hostKey hdel
    have hgone : c.getToken fs2 = .error (.auth "notoken") := by
      simp [GitLitClient.getToken, hload2]
    refine ⟨?_, hload2, ?_⟩
    · simp [GitLitClient.logout, htok, h401, hdel]
    · intro server2
      simp [GitLitClient.logout, hgone]
  · intro hns hne
    simp [GitLitClient.logout, htok, hns, hne]

/-- C2 witness: a present token, a 401 server; and a 500 server for the
other-status half. -/
theorem claim_C2_witness :
    ((GitLitClient.new "h").logout [("h.token", FileState.present "tok")]
        (fun _ => ⟨401, .null⟩)
      = (.error .unauthorized,
          [("h.token", FileState.absent),
            ("h.token", FileState.present "tok")],
          [logoutReq (GitLitClient.new "h") "tok"]) ∧
      TokenStore.load
        [("h.token", FileState.absent),
          ("h.token", FileState.present "tok")] "h" = .ok none ∧
      ∀ server2, (GitLitClient.new "h").logout
        [("h.token", FileState.absent),
          ("h.token", FileState.present "tok")] server2
        = (.error .unauthorized,
            [("h.token", FileState.absent),
              ("h.token", FileState.present "tok")], [])) ∧
    (GitLitClient.new "h").logout [("h.token", FileState.present "tok")]
        (fun _ => ⟨500, .null⟩)
      = (.error (.auth "logout failed: 500"),
          [("h.token", FileState.present "tok")],
          [logoutReq (GitLitClient.new "h") "tok"]) :=
  ⟨(claim_C2 (GitLitClient.new "h")
      [("h.token", FileState.present "tok")]
      [("h.token", FileState.absent), ("h.token", FileState.present "tok")]
      (fun _ => ⟨401, .null⟩) "tok" rfl rfl).1 rfl,
   (claim_C2 (GitLitClient.new "h")
      [("h.token", FileState.present "tok")]
      [("h.token", FileState.absent), ("h.token", FileState.present "tok")]
      (fun _ => ⟨500, .null⟩) "tok" rfl rfl).2 rfl (by decide)⟩

/-- C3 (code bug): a 2xx `login` answer whose body has no `token` field
does fail with no token persisted and the one login request sent, but with
the `Http` variant — the decode failure of `res.json()` is a
`reqwest::Error` that `#[from] reqwest::Error` converts to `Http` — not
the `SerializationError` (`Serde`) variant the spec names, which `lib.rs`
never constructs. -/
theorem claim_C3 (c : GitLitClient) (fs : FS) (server : Server)
    (lg pw : String)
    (hs : isSuccess (server (loginReq c lg pw)).status = true)
    (hmiss : (server (loginReq c lg pw)).body.getField "token" = none) :
    c.login fs server lg pw
      = (.error (.http "error decoding response body"), fs,
          [loginReq c lg pw]) ∧
    ∀ m, GitLitError.http "error decoding response body" ≠ .serde m := by
  constructor
  · simp [GitLitClient.login, hs, parseLoginResp, hmiss]
  · intro m h
    cases h

/-- C3 witness: a 200 answer with an empty JSON object body makes `login`
fail with the `Http` variant and persist nothing. -/
theorem claim_C3_witness :
    (GitLitClient.new "h").login [] (fun _ => ⟨200, .obj []⟩) "u" "p"
      = (.error (.http "error decoding response body"), [],
          [loginReq (GitLitClient.new "h") "u" "p"]) :=
  (claim_C3 (GitLitClient.new "h") [] (fun _ => ⟨200, .obj []⟩) "u" "p"
    rfl rfl).1

/-- C6: `list_repos` sends exactly one request; a pair is in its query
string exactly when the corresponding optional parameter was supplied with
that value, so an absent parameter contributes no key; with
`owner="alice"` and nothing else the query is exactly `owner=alice`. -/
theorem claim_C6 (c : GitLitClient) (fs : FS) (server : Server)
    (owner filt q : Option String) :
    (c.list_repos fs server owner filt q).2.2
        = [listReposReq c owner filt q] ∧
    (∀ k v, (k, v) ∈ (listReposReq c owner filt q).query ↔
      ((k = "owner" ∧ owner = some v) ∨ (k = "filter" ∧ filt = some v)
        ∨ (k = "q" ∧ q = some v))) ∧
    (listReposReq c (some "alice") none none).query
        = [("owner", "alice")] := by
  refine ⟨?_, ?_, rfl⟩
  · simp only [GitLitClient.list_repos]
    split <;> rfl
  · intro k v
    cases owner <;> cases filt <;> cases q <;>
      simp [listReposReq, optQuery, Prod.ext_iff] <;> aesop

/-- C9 (amended): an IO error from a credential-store `load` inside any
authenticated operation is returned to the caller, and an IO error from
the `delete` in `logout`'s success path is returned — but in `logout`'s
401 path the deletion result is discarded (`let _ = ...`) and
`Unauthorized` is returned even when the deletion failed. -/
theorem claim_C9 (c : GitLitClient) (fs : FS) (server : Server)
    (name id branch msg : String) (desc : Option String)
    (priv : Option Bool) :
    (TokenStore.load fs c.hostKey = .error (.ioError msg) →
      (c.create_repo fs server name desc priv).1
          = .error (.ioError msg) ∧
      (c.delete_repo fs server id).1 = .error (.ioError msg) ∧
      (c.delete_branch fs server id branch).1 = .error (.ioError msg) ∧
      (c.logout fs server).1 = .error (.ioError msg)) ∧
    (∀ t, c.getToken fs = .ok t →
      isSuccess (server (logoutReq c t)).status = true →
      (server (logoutReq c t)).status ≠ 401 →
      TokenStore.delete fs c.hostKey = .error (.ioError msg) →
      (c.logout fs server).1 = .error (.ioError msg)) ∧
    (∀ t, c.getToken fs = .ok t →
      (server (logoutReq c t)).status = 401 →
      TokenStore.delete fs c.hostKey = .error (.ioError msg) →
      (c.logout fs server).1 = .error .unauthorized) := by
  refine ⟨?_, ?_, ?_⟩
  · intro hload
    have hg : c.getToken fs = .error (.ioError msg) := by
      simp [GitLitClient.getToken, hload]
    refine ⟨?_, ?_, ?_, ?_⟩
    · simp [GitLitClient.create_repo, hg]
    · simp [GitLitClient.delete_repo, hg]
    · simp [GitLitClient.delete_branch, hg]
    · simp [GitLitClient.logout, hg]
  · intro t htok hsucc hne hdel
    simp [GitLitClient.logout, htok, hsucc, hne, hdel]
  · intro t htok h401 hdel
    simp [GitLitClient.logout, htok, h401, hdel]

/-- C9 witness: a locked token file makes `delete` fail; the success path
of `logout` surfaces the IO error, and an unreadable file makes every
authenticated operation surface the load IO error. -/
theorem claim_C9_witness :
    ((GitLitClient.new "h").create_repo [("h.token", FileState.unreadable)]
        (fun _ => ⟨201, .null⟩) "n" none none).1
      = .error (.ioError "read failure") ∧
    ((GitLitClient.new "h").logout [("h.token", FileState.stuck "tok")]
        (fun _ => ⟨200, .null⟩)).1 = .error (.ioError "remove failure") :=
  ⟨((claim_C9 (GitLitClient.new "h") [("h.token", FileState.unreadable)]
      (fun _ => ⟨201, .null⟩) "n" "i" "b" "read failure" none none).1
      rfl).1,
   (claim_C9 (GitLitClient.new "h") [("h.token", FileState.stuck "tok")]
      (fun _ => ⟨200, .null⟩) "n" "i" "b" "remove failure" none
      none).2.1 "tok" rfl rfl (by decide) rfl⟩

/-- C9 counterexample: with a token file whose removal fails, a 401 answer
to `logout` makes the internal `delete` fail with an IO error, yet the
operation returns `Unauthorized`: the IO error is discarded, contradicting
the claim that no error is swallowed. -/
theorem claim_C9_counterexample :
    TokenStore.delete [("h.token", FileState.stuck "tok")] "h"
        = .error (.ioError "remove failure") ∧
    (GitLitClient.new "h").logout [("h.token", FileState.stuck "tok")]
        (fun _ => ⟨401, .null⟩)
      = (.error .unauthorized, [("h.token", FileState.stuck "tok")],
          [logoutReq (GitLitClient.new "h") "tok"]) ∧
    GitLitError.unauthorized ≠ .ioError "remove failure" :=
  ⟨rfl, rfl, by decide⟩

end GitLit
